import Mathlib

/-!
# Verification of the restapi response-dispatch core

A shallow embedding of the `restapi` Go package (content negotiation, the
Result/Error/Problem response builders, error projection, and the response
write discipline), with theorems checking the natural-language specification
against the code.

Modelling conventions:
* Go `int` is `Int`; Go `string` and `[]byte` are `String`.
* A Go `error` value is represented by its message string (`err.Error()`).
* `*http.Request` is modelled by the data the package reads from it
  (`URL.Path` and `URL.RawQuery`); a nil pointer is `Option.none`.
* `time.Time` is modelled as `Nat`, with `0` standing for Go's zero value;
  the replaceable clock `nowUTC` becomes an explicit `now : Nat` parameter.
* Functions that can `panic` in Go return `Except PanicE _`.
* The negotiated marshalling function `Request.MarshalContent` is passed as
  an explicit parameter `m : Marshaller` (it is a function-typed field in Go);
  the values it may be applied to form the closed universe `MVal`.
-/

namespace RestApi

/-- Go panic values raised by the package (`ErrInvalidStatusCode`,
`ErrInvalidArgument`, …) together with runtime faults (failed type
assertion, nil dereference). -/
inductive PanicE where
  | invalidStatusCode
  | invalidArgument
  | invalidOperation
  | typeAssertionFailed
  | nilDereference
  deriving DecidableEq, Repr

/-- The part of an `*http.Request` this package reads: `URL.Path` and
`URL.RawQuery`. -/
structure HttpReq where
  path : String := ""
  query : String := ""
  deriving DecidableEq, Repr

/-- `coalesce` from coalesce.go, at type `int`: first non-zero value
(the Go function is generic over comparable types). -/
def coalesce (a b : Int) : Int := if a ≠ 0 then a else b

/-- `coalesce` at the time type (`Nat` model, `0` = Go zero value). -/
def coalesceNat (a b : Nat) : Nat := if a ≠ 0 then a else b

/-- `coalesce` at type `string`. -/
def coalesceStr (a b : String) : String := if a ≠ "" then a else b

/-- Go's `http.StatusText` for the status codes exercised by this
development; unknown codes map to `""` exactly as in net/http. -/
def statusText (code : Int) : String :=
  if code = 100 then "Continue"
  else if code = 200 then "OK"
  else if code = 201 then "Created"
  else if code = 202 then "Accepted"
  else if code = 204 then "No Content"
  else if code = 400 then "Bad Request"
  else if code = 401 then "Unauthorized"
  else if code = 403 then "Forbidden"
  else if code = 404 then "Not Found"
  else if code = 406 then "Not Acceptable"
  else if code = 500 then "Internal Server Error"
  else if code = 501 then "Not Implemented"
  else ""

/-- The default projection model `errorResponse` from projectError.go.
`additional` keeps the property bag; property values are opaque (`Nat`). -/
structure ErrorProjection where
  status : Int := 0
  error : String := ""
  message : String := ""
  path : String := ""
  query : String := ""
  timestamp : Nat := 0
  help : String := ""
  additional : List (String × Nat) := []
  deriving DecidableEq, Repr

/-- The closed universe of values handed to a marshalling function in the
modelled flows: an error projection, an opaque endpoint value, or raw bytes. -/
inductive MVal where
  | proj (p : ErrorProjection)
  | value (v : Nat)
  | bytes (b : String)
  deriving DecidableEq, Repr

/-- `Request.MarshalContent`: the content-marshalling function selected by
negotiation (`func(any) ([]byte, error)`). -/
abbrev Marshaller := MVal → Except String String

/-- The `Error` struct from the error source file: unexported fields
`err`, `help`, `message`, `request`, `statusCode`, `timeStamp`,
`properties`, `headers`. -/
structure ErrorS where
  err : Option String := none
  help : Option String := none
  message : Option String := none
  request : Option HttpReq := none
  statusCode : Int := 0
  timeStamp : Nat := 0
  properties : List (String × Nat) := []
  headers : List (String × String) := []
  deriving DecidableEq, Repr

/-- The `ErrorInfo` struct from errorInfo.go (the snapshot handed to
`ProjectError` / `LogError`). -/
structure ErrorInfoS where
  statusCode : Int := 0
  err : Option String := none
  help : String := ""
  message : String := ""
  request : Option HttpReq := none
  properties : List (String × Nat) := []
  timeStamp : Nat := 0
  deriving DecidableEq, Repr

/-- The `Result` struct: unexported fields `content` (an `any`: `none`
models a nil interface), `contentType`, `headers`, `statusCode`. -/
structure ResultS where
  content : Option MVal := none
  contentType : Option String := none
  headers : List (String × String) := []
  statusCode : Int := 0
  deriving DecidableEq, Repr

/-- The `Problem` struct from problem.go.  `instanceURL` models the
`Instance` field (`instance` is reserved in Lean); property values are
opaque (`Nat`); the nil/empty map distinction of `props` is not observable
in the modelled flows, so `props` is an association list. -/
structure ProblemS where
  type : Option String := none
  status : Int := 0
  instanceURL : Option String := none
  detail : String := ""
  title : String := ""
  props : List (String × Nat) := []
  deriving DecidableEq, Repr

/-- The `Response` struct from response.go. -/
structure Response where
  statusCode : Int := 0
  contentType : String := ""
  content : String := ""
  headers : List (String × String) := []
  deriving DecidableEq, Repr

/-- The `Request` struct from the request source file.  The function-typed
field `MarshalContent` is supplied separately as a `Marshaller` parameter
wherever it is used. -/
structure RequestS where
  request : HttpReq
  accept : String
  deriving DecidableEq, Repr

/-- An argument to the variadic constructors `NewError` / `NewProblem`:
Go `any` values of the types those functions inspect.  `other` stands for
any value of a type neither constructor has a case for (including nil). -/
inductive GoVal where
  | int (n : Int)
  | str (s : String)
  | err (e : String)
  | req (r : HttpReq)
  | url (u : String)
  | props (m : List (String × Nat))
  | other
  deriving DecidableEq, Repr

/-- `ErrInvalidAcceptHeader` from errors.go (represented by its message). -/
def errInvalidAcceptHeader : String := "no formatter for content type"

/-- `ErrMarshalResultFailed` from errors.go (represented by its message). -/
def errMarshalResultFailed : String := "error marshalling response"

/-- The keys of the `marshal` registry in marshalling.go. -/
def marshalKeys : List String :=
  ["application/json", "application/xml", "text/json", "text/xml"]

/-- `newRequest` from the request source file: resolve the Accept header,
defaulting `""` and `"*/*"` to `application/json`, then look the resolved
value up in the `marshal` registry (here: membership in `marshalKeys`;
the selected marshalling function itself is carried separately). -/
def newRequest (hreq : HttpReq) (accept : String) : Except String RequestS :=
  let acc := if accept = "" ∨ accept = "*/*" then "application/json" else accept
  if acc ∈ marshalKeys then
    Except.ok { request := hreq, accept := acc }
  else
    Except.error errInvalidAcceptHeader

/-- `Status` from the result source file: panics outside `[100, 599]`
("valid range is 1xx-5xx"). -/
def Status (statusCode : Int) : Except PanicE ResultS :=
  if statusCode < 100 ∨ statusCode > 599 then
    Except.error PanicE.invalidStatusCode
  else
    Except.ok { statusCode := statusCode }

/-- Accumulator for `NewError`'s argument loop (the local variables
`errs`, `strs`, `sc`, `rq`). -/
structure ErrArgAcc where
  errs : List String := []
  strs : List String := []
  sc : Option Int := none
  rq : Option HttpReq := none
  deriving DecidableEq, Repr

/-- The argument loop of `NewError`: errors are collected, out-of-range
ints panic with `ErrInvalidStatusCode`, the first int fixes the status,
strings are collected, the last `*http.Request` wins, and arguments of
any other type fall through the switch unhandled (silently ignored). -/
def collectErrorArgs : List GoVal → ErrArgAcc → Except PanicE ErrArgAcc
  | [], acc => Except.ok acc
  | a :: rest, acc =>
    match a with
    | GoVal.err e => collectErrorArgs rest { acc with errs := acc.errs ++ [e] }
    | GoVal.int v =>
      if v < 400 ∨ v > 599 then Except.error PanicE.invalidStatusCode
      else
        collectErrorArgs rest
          { acc with sc := match acc.sc with | none => some v | some s => some s }
    | GoVal.str s => collectErrorArgs rest { acc with strs := acc.strs ++ [s] }
    | GoVal.req r => collectErrorArgs rest { acc with rq := some r }
    | _ => collectErrorArgs rest acc

/-- `NewError`: run the argument loop, join multiple errors
(`errors.Join` renders messages newline-separated), space-join strings
into the message, default the status to 500, and stamp the clock. -/
def newError (now : Nat) (args : List GoVal) : Except PanicE ErrorS := do
  let acc ← collectErrorArgs args {}
  let err : Option String :=
    match acc.errs with
    | [] => none
    | [e] => some e
    | es => some (String.intercalate "\n" es)
  let msg : Option String :=
    if acc.strs = [] then none else some (String.intercalate " " acc.strs)
  Except.ok
    { statusCode := coalesce (acc.sc.getD 0) 500
      err := err
      message := msg
      request := acc.rq
      timeStamp := now }

/-- `BadRequest`: `NewError` with 400 prepended. -/
def badRequest (now : Nat) (args : List GoVal) : Except PanicE ErrorS :=
  newError now (GoVal.int 400 :: args)

/-- `Forbidden`: `NewError` with 403 prepended. -/
def forbidden (now : Nat) (args : List GoVal) : Except PanicE ErrorS :=
  newError now (GoVal.int 403 :: args)

/-- `InternalServerError`: `NewError` with 500 prepended. -/
def internalServerError (now : Nat) (args : List GoVal) : Except PanicE ErrorS :=
  newError now (GoVal.int 500 :: args)

/-- `NotFound`: `NewError` with 404 prepended. -/
def notFound (now : Nat) (args : List GoVal) : Except PanicE ErrorS :=
  newError now (GoVal.int 404 :: args)

/-- `Unauthorized`: `NewError` with 401 prepended. -/
def unauthorized (now : Nat) (args : List GoVal) : Except PanicE ErrorS :=
  newError now (GoVal.int 401 :: args)

/-- `Error.Error()`: `"<code> <status text>[: <error>][: <message>]"`,
transcribing the four-way switch of the source. -/
def errorString (e : ErrorS) : String :=
  let code := toString e.statusCode
  let status := statusText e.statusCode
  match e.err, e.message with
  | some er, some msg => code ++ " " ++ status ++ ": " ++ er ++ ": " ++ msg
  | some er, none => code ++ " " ++ status ++ ": " ++ er
  | none, some msg => code ++ " " ++ status ++ ": " ++ msg
  | none, none => code ++ " " ++ status

/-- `Error.info()`: snapshot the Error into an `ErrorInfo`
(`ifNotNil` on the optional strings becomes `Option.getD _ ""`). -/
def errorInfo (e : ErrorS) : ErrorInfoS :=
  { statusCode := e.statusCode
    err := e.err
    message := e.message.getD ""
    help := e.help.getD ""
    request := e.request
    properties := e.properties
    timeStamp := e.timeStamp }

/-- The default `ProjectError` implementation from projectError.go.
Dereferencing a nil `Request` is a runtime fault (`nilDereference`);
otherwise build the `errorResponse` with the message switch
(`err`-only, `err` + message, message-only) and the cloned property bag. -/
def projectError (inf : ErrorInfoS) : Except PanicE ErrorProjection :=
  match inf.request with
  | none => Except.error PanicE.nilDereference
  | some req =>
    let pe : ErrorProjection :=
      { status := inf.statusCode
        error := statusText inf.statusCode
        message := inf.message
        path := req.path
        query := req.query
        timestamp := inf.timeStamp
        help := inf.help }
    let pe :=
      if pe.message = "" ∧ inf.err.isSome then
        { pe with message := inf.err.getD "" }
      else if pe.message ≠ "" ∧ inf.err.isSome then
        { pe with message := inf.err.getD "" ++ ": " ++ pe.message }
      else pe
    Except.ok (if inf.properties ≠ [] then { pe with additional := inf.properties } else pe)

/-- Lines 27–29 of `makeErrorResponse` ("apply defaults in case the Error
was not fully initialised"): `statusCode` and `timeStamp` are coalesced,
but the request reference is assigned from the inbound request
unconditionally (`e.request = rq.Request`). -/
def resolveError (now : Nat) (e : ErrorS) (rq : RequestS) : ErrorS :=
  { e with
    statusCode := coalesce e.statusCode 500
    timeStamp := coalesceNat e.timeStamp now
    request := some rq.request }

/-- The fixed plain-text body built by `makeErrorResponse` when marshalling
the projection fails (`strings.Join(lines, "\n")` written as appends). -/
def doubleFailureContent (marshalErr origErr : String) : String :=
  "An error occurred marshalling an error response" ++ "\n"
    ++ "" ++ "\n"
    ++ "The marshalling error was:" ++ "\n"
    ++ "   " ++ marshalErr ++ "\n"
    ++ "" ++ "\n"
    ++ "The original error was:" ++ "\n"
    ++ "   " ++ origErr

/-- `makeErrorResponse`: validate an explicit status code (panic outside
4xx–5xx), apply the build-time defaults, project, marshal the projection
with the request's marshaller; on marshal failure emit the fixed 500
`plain/text` fallback, otherwise the marshalled projection at the Error's
status and the negotiated content type. -/
def makeErrorResponse (m : Marshaller) (now : Nat) (e : ErrorS) (rq : RequestS) :
    Except PanicE Response :=
  if e.statusCode ≠ 0 ∧ (e.statusCode < 400 ∨ e.statusCode > 599) then
    Except.error PanicE.invalidStatusCode
  else do
    let e := resolveError now e rq
    let p ← projectError (errorInfo e)
    let statusCode := e.statusCode
    let contentType := rq.accept
    match m (MVal.proj p) with
    | Except.error err =>
      Except.ok
        { statusCode := 500
          contentType := "plain/text"
          content := doubleFailureContent err (errorString e) }
    | Except.ok content =>
      Except.ok { statusCode := statusCode, contentType := contentType, content := content }

/-- `Result.WithContent`: replace content with the (cloned) bytes and set
the explicit content type. -/
def ResultS.withContent (r : ResultS) (contentType : String) (content : String) : ResultS :=
  { r with content := some (MVal.bytes content), contentType := some contentType }

/-- `Result.WithValue`: set the content to a value for negotiated
marshalling and clear any explicit content type. -/
def ResultS.withValue (r : ResultS) (v : MVal) : ResultS :=
  { r with content := some v, contentType := none }

/-- `makeResultResponse`: status defaults to 200; an explicit
(content-type, bytes) pair bypasses negotiation (the `.([]byte)` type
assertion faults on a non-bytes content); nil content means an empty body;
otherwise marshal the content with the request's marshaller, and on
failure delegate to `InternalServerError(fmt.Errorf("%w: %w",
ErrMarshalResultFailed, err)).makeResponse(rq)`. -/
def makeResultResponse (m : Marshaller) (now : Nat) (r : ResultS) (rq : RequestS) :
    Except PanicE Response :=
  let response0 : Response :=
    { statusCode := coalesce r.statusCode 200, headers := r.headers }
  match r.contentType, r.content with
  | some ct, some c =>
    match c with
    | MVal.bytes b => Except.ok { response0 with content := b, contentType := ct }
    | _ => Except.error PanicE.typeAssertionFailed
  | _, _ =>
    match r.content with
    | none => Except.ok response0
    | some c =>
      let contentType := rq.accept
      match m c with
      | Except.error err => do
        let e ← internalServerError now [GoVal.err (errMarshalResultFailed ++ ": " ++ err)]
        makeErrorResponse m now e rq
      | Except.ok content =>
        Except.ok { response0 with contentType := contentType, content := content }

/-- `setKey`: Go map assignment `m[k] = v` on the association-list model
(replace the binding if the key exists, else append). -/
def setKey (l : List (String × Nat)) (k : String) (v : Nat) : List (String × Nat) :=
  if l.any (fun kv => kv.1 = k) then
    l.map (fun kv => if kv.1 = k then (k, v) else kv)
  else l ++ [(k, v)]

/-- The argument loop of `NewProblem`: ints replace the status (no range
validation), URLs replace the type, strings replace the detail, an error
coalesces the status to 500 but assigns the detail unconditionally,
property maps merge with later keys overriding, and any other argument
type panics with `ErrInvalidArgument` (the `default` case). -/
def processProblemArgs : List GoVal → ProblemS → Except PanicE ProblemS
  | [], p => Except.ok p
  | a :: rest, p =>
    match a with
    | GoVal.int n => processProblemArgs rest { p with status := n }
    | GoVal.url u => processProblemArgs rest { p with type := some u }
    | GoVal.str s => processProblemArgs rest { p with detail := s }
    | GoVal.err e =>
      processProblemArgs rest { p with status := coalesce p.status 500, detail := e }
    | GoVal.props m =>
      processProblemArgs rest
        { p with props := m.foldl (fun acc kv => setKey acc kv.1 kv.2) p.props }
    | _ => Except.error PanicE.invalidArgument

/-- `NewProblem`: run the argument loop, then default the status to 500
and the detail to the status text of the (defaulted) status. -/
def newProblem (args : List GoVal) : Except PanicE ProblemS := do
  let p ← processProblemArgs args {}
  let st := coalesce p.status 500
  Except.ok { p with status := st, detail := coalesceStr p.detail (statusText st) }

/-- The state of an `http.ResponseWriter` transport: headers emitted so
far, the committed status code (headers added after the commit are lost,
and writing a body with no committed status commits 200, as in net/http),
the body bytes, and the diagnostic log fed by `LogError`. -/
structure WriterState where
  pending : List (String × String) := []
  committed : Option Int := none
  body : String := ""
  log : List String := []
  deriving DecidableEq, Repr

/-- `rw.Header()` mutation: emitting a header has an effect only while no
status code has been committed.  Header values reach this point already
string-rendered (`fmt.Sprintf("%v", v)` in the source). -/
def addHeader (s : WriterState) (k v : String) : WriterState :=
  if s.committed = none then { s with pending := s.pending ++ [(k, v)] } else s

/-- `rw.WriteHeader(code)`: commit the status code (first commit wins). -/
def writeHeader (s : WriterState) (code : Int) : WriterState :=
  if s.committed = none then { s with committed := some code } else s

/-- `rw.Write(content)` via `responseWriterWrite`: auto-commits 200 when no
status was committed (net/http behaviour), then either appends the bytes
or reports a transport failure without writing. -/
def writeBody (s : WriterState) (b : String) (failMsg : Option String) :
    WriterState × Option String :=
  let s := if s.committed = none then { s with committed := some 200 } else s
  match failMsg with
  | none => ({ s with body := s.body ++ b }, none)
  | some msg => (s, some msg)

/-- `Response.write` from response.go: add Content-Type, then every
additional header, then commit the status code, then write the body; a
body-write failure is passed to `LogError` (the `log` component) and the
function still returns normally — no fault reaches the caller. -/
def Response.write (r : Response) (failMsg : Option String) (s : WriterState) : WriterState :=
  let s := addHeader s "Content-Type" r.contentType
  let s := r.headers.foldl (fun s kv => addHeader s kv.1 kv.2) s
  let s := writeHeader s r.statusCode
  match writeBody s r.content failMsg with
  | (s, none) => s
  | (s, some msg) => { s with log := s.log ++ ["error writing response: " ++ msg] }

/-- `x` occurs as a contiguous substring of `s`. -/
def strContains (s x : String) : Prop := ∃ pre post, s = (pre ++ x) ++ post

/-- Arguments `NewError`'s switch has a case for. -/
def isErrorSupportedArg : GoVal → Bool
  | GoVal.int _ => true
  | GoVal.str _ => true
  | GoVal.err _ => true
  | GoVal.req _ => true
  | _ => false

/-- Arguments `NewProblem`'s switch has a case for. -/
def isProblemSupportedArg : GoVal → Bool
  | GoVal.int _ => true
  | GoVal.url _ => true
  | GoVal.str _ => true
  | GoVal.err _ => true
  | GoVal.props _ => true
  | _ => false

/-! ## Theorems -/

/-- C3 (counterexample): the code rejects status 99 although 99 lies in
the claimed range `[1,599]` — `Status` validates `[100,599]`. -/
theorem Status_claim_false_at_99 :
    ((1 : Int) ≤ 99 ∧ (99 : Int) ≤ 599) ∧
      Status 99 = Except.error PanicE.invalidStatusCode :=
  ⟨by decide, rfl⟩

/-- C3 (amended): `Status(code)` succeeds with exactly that status code
for every code in the inclusive range `[100,599]` and fails
deterministically with `ErrInvalidStatusCode` outside it. -/
theorem Status_validates_100_to_599 (code : Int) :
    (100 ≤ code ∧ code ≤ 599 → Status code = Except.ok { statusCode := code })
    ∧ (code < 100 ∨ 599 < code → Status code = Except.error PanicE.invalidStatusCode) := by
  constructor
  · intro h
    simp [Status]
    omega
  · intro h
    have hc : code < 100 ∨ code > 599 := by omega
    simp [Status, hc]

/-- Witness for C3's amended theorem at codes 150 and 600. -/
theorem Status_validates_100_to_599_witness :
    Status 150 = Except.ok { statusCode := 150 }
    ∧ Status 600 = Except.error PanicE.invalidStatusCode :=
  ⟨(Status_validates_100_to_599 150).1 (by decide),
   (Status_validates_100_to_599 600).2 (by decide)⟩

/-- C4: content negotiation maps an empty Accept value and `*/*` to
`application/json`; any other value succeeds (keeping that exact value)
iff it is one of the four registry keys, and otherwise fails with
`ErrInvalidAcceptHeader`. -/
theorem newRequest_negotiation (hreq : HttpReq) (s : String) :
    (s = "" ∨ s = "*/*" →
      newRequest hreq s = Except.ok { request := hreq, accept := "application/json" })
    ∧ (¬(s = "" ∨ s = "*/*") →
        (s ∈ marshalKeys → newRequest hreq s = Except.ok { request := hreq, accept := s })
        ∧ (s ∉ marshalKeys → newRequest hreq s = Except.error errInvalidAcceptHeader)) := by
  refine ⟨fun h => ?_, fun h => ⟨fun hmem => ?_, fun hmem => ?_⟩⟩
  · simp [newRequest, h, marshalKeys]
  · simp [newRequest, h, hmem]
  · simp [newRequest, h, hmem]

/-- Witness for C4 at `""`, `"*/*"`, `"application/xml"`, `"text/plain"`. -/
theorem newRequest_negotiation_witness :
    newRequest ⟨"", ""⟩ "" = Except.ok { request := ⟨"", ""⟩, accept := "application/json" }
    ∧ newRequest ⟨"", ""⟩ "*/*" =
        Except.ok { request := ⟨"", ""⟩, accept := "application/json" }
    ∧ newRequest ⟨"", ""⟩ "application/xml" =
        Except.ok { request := ⟨"", ""⟩, accept := "application/xml" }
    ∧ newRequest ⟨"", ""⟩ "text/plain" = Except.error errInvalidAcceptHeader :=
  ⟨(newRequest_negotiation ⟨"", ""⟩ "").1 (Or.inl rfl),
   (newRequest_negotiation ⟨"", ""⟩ "*/*").1 (Or.inr rfl),
   ((newRequest_negotiation ⟨"", ""⟩ "application/xml").2 (by decide)).1 (by decide),
   ((newRequest_negotiation ⟨"", ""⟩ "text/plain").2 (by decide)).2 (by decide)⟩

/-- C5: a Result carrying an explicit (content-type, bytes) pair set via
`WithContent` produces a Response with exactly that content type and
exactly those bytes, for every request (Accept value) and every
marshaller — negotiation is bypassed entirely. -/
theorem withContent_bypasses_negotiation (m : Marshaller) (now : Nat) (r : ResultS)
    (rq : RequestS) (ct b : String) :
    makeResultResponse m now (r.withContent ct b) rq =
      Except.ok
        { statusCode := coalesce r.statusCode 200
          contentType := ct
          content := b
          headers := r.headers } :=
  rfl

/-- C6: `Error.Error()` renders
`"<code> <status text>[: <wrapped error>][: <message>]"` with the
wrapped-error segment before the message segment; an Error with status
404 and no cause or message renders `"404 Not Found"`, and with cause `E`
and message `M` renders `"404 Not Found: <E>: M"`. -/
theorem errorString_form :
    (∀ e : ErrorS, errorString e =
        toString e.statusCode ++ " " ++ statusText e.statusCode
          ++ (match e.err with | some er => ": " ++ er | none => "")
          ++ (match e.message with | some msg => ": " ++ msg | none => ""))
    ∧ errorString { statusCode := 404 } = "404 Not Found"
    ∧ (∀ E M : String,
        errorString { statusCode := 404, err := some E, message := some M } =
          "404 Not Found: " ++ E ++ ": " ++ M) := by
  refine ⟨fun e => ?_, rfl, fun E M => ?_⟩
  · cases h1 : e.err <;> cases h2 : e.message <;>
      simp [errorString, h1, h2, String.append_assoc]
  · show "404" ++ " " ++ "Not Found" ++ ": " ++ E ++ ": " ++ M = _
    simp [String.append_assoc]

/-- C8 (counterexample): an Error with an explicitly attached request
reference loses it at build time — `makeErrorResponse` overwrites the
reference with the inbound request unconditionally. -/
theorem error_request_not_retained :
    (resolveError 0 { statusCode := 404, request := some ⟨"/attached", "a"⟩ }
        ⟨⟨"/inbound", "b"⟩, "application/json"⟩).request ≠ some ⟨"/attached", "a"⟩
    ∧ (resolveError 0 { statusCode := 404, request := some ⟨"/attached", "a"⟩ }
        ⟨⟨"/inbound", "b"⟩, "application/json"⟩).request = some ⟨"/inbound", "b"⟩ := by
  constructor
  · decide
  · rfl

/-- C8 (amended): at Error build time the request reference is always
replaced by the inbound request, whether or not one was explicitly set. -/
theorem error_request_always_inbound (now : Nat) (e : ErrorS) (rq : RequestS) :
    (resolveError now e rq).request = some rq.request :=
  rfl

/-- C7: evaluating `NewProblem` at inputs its own documentation describes:
a detail string followed by an error argument has its detail overwritten
by the error text, and with two error arguments the second error's text
(not the first, as documented) becomes the detail. -/
theorem newProblem_error_overwrites_detail :
    newProblem [GoVal.str "some detail", GoVal.err "boom"] =
      Except.ok { status := 500, detail := "boom" }
    ∧ newProblem [GoVal.int 400, GoVal.err "some error", GoVal.err "another error"] =
      Except.ok { status := 400, detail := "another error" } :=
  ⟨rfl, rfl⟩

/-- Folding header emission over an uncommitted writer appends every
header, in order, without committing a status. -/
theorem foldl_addHeader_uncommitted (hs : List (String × String)) :
    ∀ s : WriterState, s.committed = none →
      hs.foldl (fun s kv => addHeader s kv.1 kv.2) s =
        { s with pending := s.pending ++ hs } := by
  induction hs with
  | nil => intro s _; simp
  | cons kv rest ih =>
    intro s h
    have hstep : addHeader s kv.1 kv.2 = { s with pending := s.pending ++ [kv] } := by
      simp [addHeader, h]
    rw [List.foldl_cons, hstep, ih _ (by simp [h])]
    simp

/-- C9: writing a Response emits Content-Type first, then every additional
header (all of them land, because they are emitted before the status
commit), then commits exactly the Response's status code, then writes the
body; when the body write fails the failure is appended to the diagnostic
log and the writer still ends in a well-formed state — the Response's
status, not the auto-committed 200, is always the committed one, and no
fault is returned to the caller. -/
theorem response_write_discipline (r : Response) :
    r.write none {} =
      { pending := ("Content-Type", r.contentType) :: r.headers
        committed := some r.statusCode
        body := r.content
        log := [] }
    ∧ ∀ msg : String,
        r.write (some msg) {} =
          { pending := ("Content-Type", r.contentType) :: r.headers
            committed := some r.statusCode
            body := ""
            log := ["error writing response: " ++ msg] } := by
  have h0 : addHeader {} "Content-Type" r.contentType =
      { pending := [("Content-Type", r.contentType)] } := by
    simp [addHeader]
  have h1 : r.headers.foldl (fun s kv => addHeader s kv.1 kv.2)
      ({ pending := [("Content-Type", r.contentType)] } : WriterState) =
      { pending := ("Content-Type", r.contentType) :: r.headers } := by
    rw [foldl_addHeader_uncommitted r.headers _ rfl]
    simp
  constructor
  · show (match writeBody _ r.content none with
      | (s, none) => s
      | (s, some msg) => { s with log := s.log ++ ["error writing response: " ++ msg] }) = _
    rw [h0, h1]
    simp [writeHeader, writeBody]
  · intro msg
    show (match writeBody _ r.content (some msg) with
      | (s, none) => s
      | (s, some msg) => { s with log := s.log ++ ["error writing response: " ++ msg] }) = _
    rw [h0, h1]
    simp [writeHeader, writeBody]

/-- `NewError`'s argument loop gives the same accumulator when arguments
of unsupported types are removed: the switch silently skips them. -/
theorem collectErrorArgs_filter (args : List GoVal) :
    ∀ acc : ErrArgAcc,
      collectErrorArgs args acc =
        collectErrorArgs (args.filter isErrorSupportedArg) acc := by
  induction args with
  | nil => intro acc; rfl
  | cons a rest ih =>
    intro acc
    cases a with
    | int v =>
      simp only [collectErrorArgs, isErrorSupportedArg, List.filter]
      by_cases hv : v < 400 ∨ v > 599 <;> simp [collectErrorArgs, hv, ih]
    | _ => simp [collectErrorArgs, isErrorSupportedArg, List.filter, ih]

/-- `NewProblem`'s argument loop panics with `ErrInvalidArgument` whenever
an argument of an unsupported type occurs anywhere in the sequence. -/
theorem processProblemArgs_unsupported (a : GoVal) (r : List GoVal)
    (ha : isProblemSupportedArg a = false) (l : List GoVal) :
    ∀ p : ProblemS,
      processProblemArgs (l ++ a :: r) p = Except.error PanicE.invalidArgument := by
  induction l with
  | nil =>
    intro p
    cases a <;> simp_all [isProblemSupportedArg, processProblemArgs]
  | cons b rest ih =>
    intro p
    cases b <;> simp [processProblemArgs, ih]

/-- C10: `NewError` (and the fixed-status factories, each of which merely
prepends its status code) silently ignores every argument whose type is
not int, string, error or `*http.Request` — removing such arguments never
changes the result, so construction never fails because of an unsupported
argument type — whereas `NewProblem` panics with `ErrInvalidArgument` as
soon as an argument of an unsupported type appears. -/
theorem newError_ignores_unsupported_args :
    (∀ (now : Nat) (args : List GoVal),
        newError now args = newError now (args.filter isErrorSupportedArg))
    ∧ (∀ (now : Nat) (args : List GoVal),
        badRequest now args = newError now (GoVal.int 400 :: args)
        ∧ forbidden now args = newError now (GoVal.int 403 :: args)
        ∧ internalServerError now args = newError now (GoVal.int 500 :: args)
        ∧ notFound now args = newError now (GoVal.int 404 :: args)
        ∧ unauthorized now args = newError now (GoVal.int 401 :: args))
    ∧ (∀ (l r : List GoVal) (a : GoVal), isProblemSupportedArg a = false →
        newProblem (l ++ a :: r) = Except.error PanicE.invalidArgument) := by
  refine ⟨fun now args => ?_, fun now args => ⟨rfl, rfl, rfl, rfl, rfl⟩,
    fun l r a ha => ?_⟩
  · unfold newError
    rw [collectErrorArgs_filter args {}]
  · unfold newProblem
    rw [processProblemArgs_unsupported a r ha l {}]
    rfl

/-- Witness for C10: `NewProblem` with a supported argument followed by an
unsupported one panics with `ErrInvalidArgument`. -/
theorem newError_ignores_unsupported_args_witness :
    newProblem [GoVal.str "x", GoVal.other] = Except.error PanicE.invalidArgument :=
  newError_ignores_unsupported_args.2.2 [GoVal.str "x"] [] GoVal.other rfl

/-- Evaluation of `makeErrorResponse` when marshalling the projection
fails: the fixed 500 `plain/text` fallback. -/
theorem makeErrorResponse_marshal_fail (m : Marshaller) (now : Nat) (e : ErrorS)
    (rq : RequestS) (p : ErrorProjection) (failMsg : String)
    (hguard : ¬(e.statusCode ≠ 0 ∧ (e.statusCode < 400 ∨ e.statusCode > 599)))
    (hp : projectError (errorInfo (resolveError now e rq)) = Except.ok p)
    (hm : m (MVal.proj p) = Except.error failMsg) :
    makeErrorResponse m now e rq =
      Except.ok
        { statusCode := 500
          contentType := "plain/text"
          content := doubleFailureContent failMsg (errorString (resolveError now e rq)) } := by
  unfold makeErrorResponse
  rw [if_neg hguard]
  show ((do
    let q ← projectError (errorInfo (resolveError now e rq))
    match m (MVal.proj q) with
    | Except.error err =>
      Except.ok
        { statusCode := 500
          contentType := "plain/text"
          content := doubleFailureContent err (errorString (resolveError now e rq)) }
    | Except.ok content =>
      Except.ok
        { statusCode := (resolveError now e rq).statusCode
          contentType := rq.accept
          content := content }) : Except PanicE Response) = _
  rw [hp]
  show ((match m (MVal.proj p) with
    | Except.error err =>
      Except.ok
        { statusCode := 500
          contentType := "plain/text"
          content := doubleFailureContent err (errorString (resolveError now e rq)) }
    | Except.ok content =>
      Except.ok
        { statusCode := (resolveError now e rq).statusCode
          contentType := rq.accept
          content := content }) : Except PanicE Response) = _
  rw [hm]

/-- Evaluation of `makeErrorResponse` when marshalling the projection
succeeds: the marshalled projection at the resolved status and the
negotiated content type. -/
theorem makeErrorResponse_marshal_ok (m : Marshaller) (now : Nat) (e : ErrorS)
    (rq : RequestS) (p : ErrorProjection) (body : String)
    (hguard : ¬(e.statusCode ≠ 0 ∧ (e.statusCode < 400 ∨ e.statusCode > 599)))
    (hp : projectError (errorInfo (resolveError now e rq)) = Except.ok p)
    (hm : m (MVal.proj p) = Except.ok body) :
    makeErrorResponse m now e rq =
      Except.ok
        { statusCode := (resolveError now e rq).statusCode
          contentType := rq.accept
          content := body } := by
  unfold makeErrorResponse
  rw [if_neg hguard]
  show ((do
    let q ← projectError (errorInfo (resolveError now e rq))
    match m (MVal.proj q) with
    | Except.error err =>
      Except.ok
        { statusCode := 500
          contentType := "plain/text"
          content := doubleFailureContent err (errorString (resolveError now e rq)) }
    | Except.ok content =>
      Except.ok
        { statusCode := (resolveError now e rq).statusCode
          contentType := rq.accept
          content := content }) : Except PanicE Response) = _
  rw [hp]
  show ((match m (MVal.proj p) with
    | Except.error err =>
      Except.ok
        { statusCode := 500
          contentType := "plain/text"
          content := doubleFailureContent err (errorString (resolveError now e rq)) }
    | Except.ok content =>
      Except.ok
        { statusCode := (resolveError now e rq).statusCode
          contentType := rq.accept
          content := content }) : Except PanicE Response) = _
  rw [hm]

/-- C1: if marshalling an Error's projection fails, the produced Response
has status 500 regardless of the Error's own status code, content type
`plain/text`, and a body containing both the marshalling failure text and
the string form of the (resolved) original Error; the result depends only
on the marshaller's behaviour at that single projection — no second
marshal is attempted — and no fault propagates (the result is `ok`). -/
theorem error_double_failure_contained (m : Marshaller) (now : Nat) (e : ErrorS)
    (rq : RequestS) (p : ErrorProjection) (failMsg : String)
    (hsc : e.statusCode = 0 ∨ (400 ≤ e.statusCode ∧ e.statusCode ≤ 599))
    (hp : projectError (errorInfo (resolveError now e rq)) = Except.ok p)
    (hm : m (MVal.proj p) = Except.error failMsg) :
    makeErrorResponse m now e rq =
        Except.ok
          { statusCode := 500
            contentType := "plain/text"
            content := doubleFailureContent failMsg (errorString (resolveError now e rq)) }
      ∧ strContains (doubleFailureContent failMsg (errorString (resolveError now e rq))) failMsg
      ∧ strContains (doubleFailureContent failMsg (errorString (resolveError now e rq)))
          (errorString (resolveError now e rq))
      ∧ ∀ m' : Marshaller, m' (MVal.proj p) = Except.error failMsg →
          makeErrorResponse m' now e rq = makeErrorResponse m now e rq := by
  have hguard : ¬(e.statusCode ≠ 0 ∧ (e.statusCode < 400 ∨ e.statusCode > 599)) := by
    rcases hsc with h | ⟨h1, h2⟩
    · exact fun hc => hc.1 h
    · rintro ⟨-, h3 | h3⟩ <;> omega
  refine ⟨makeErrorResponse_marshal_fail m now e rq p failMsg hguard hp hm, ?_, ?_,
    fun m' hm' =>
      (makeErrorResponse_marshal_fail m' now e rq p failMsg hguard hp hm').trans
        (makeErrorResponse_marshal_fail m now e rq p failMsg hguard hp hm).symm⟩
  · exact ⟨"An error occurred marshalling an error response" ++ "\n" ++ "" ++ "\n"
        ++ "The marshalling error was:" ++ "\n" ++ "   ",
      "\n" ++ "" ++ "\n" ++ "The original error was:" ++ "\n" ++ "   "
        ++ errorString (resolveError now e rq),
      by simp [doubleFailureContent, String.append_assoc]⟩
  · exact ⟨"An error occurred marshalling an error response" ++ "\n" ++ "" ++ "\n"
        ++ "The marshalling error was:" ++ "\n" ++ "   " ++ failMsg ++ "\n" ++ "" ++ "\n"
        ++ "The original error was:" ++ "\n" ++ "   ", "",
      by simp [doubleFailureContent, String.append_assoc]⟩

/-- Witness for C1: an Error with status 404 and message `"m"` whose
projection fails to marshal yields the fixed 500 `plain/text` fallback. -/
theorem error_double_failure_contained_witness :
    makeErrorResponse (fun _ => Except.error "boom") 0
        { statusCode := 404, message := some "m" } ⟨⟨"/p", "q"⟩, "application/json"⟩ =
      Except.ok
        { statusCode := 500
          contentType := "plain/text"
          content := doubleFailureContent "boom" "404 Not Found: m" } :=
  (error_double_failure_contained (fun _ => Except.error "boom") 0
    { statusCode := 404, message := some "m" } ⟨⟨"/p", "q"⟩, "application/json"⟩
    { status := 404, error := "Not Found", message := "m", path := "/p", query := "q" }
    "boom" (Or.inr (by decide)) rfl rfl).1

/-- C2: if a Result's content value fails to marshal, the produced
Response has status 500, the negotiated content type, and the marshalled
projection of a synthesized Error wrapping `ErrMarshalResultFailed` — the
projection's message records the marshal failure, and the response is the
same for any content value failing the same way, so it never contains the
original value; the pipeline does not abort (the result is `ok`). -/
theorem result_marshal_failure_yields_500 (m : Marshaller) (now : Nat) (r : ResultS)
    (rq : RequestS) (v : MVal) (failMsg body : String) (e2 : ErrorS) (p : ErrorProjection)
    (hct : r.contentType = none)
    (hc : r.content = some v)
    (hv : m v = Except.error failMsg)
    (he : internalServerError now [GoVal.err (errMarshalResultFailed ++ ": " ++ failMsg)] =
      Except.ok e2)
    (hp : projectError (errorInfo (resolveError now e2 rq)) = Except.ok p)
    (hm : m (MVal.proj p) = Except.ok body) :
    makeResultResponse m now r rq =
        Except.ok { statusCode := 500, contentType := rq.accept, content := body, headers := [] }
      ∧ p.message = errMarshalResultFailed ++ ": " ++ failMsg
      ∧ ∀ v2 : MVal, m v2 = Except.error failMsg →
          makeResultResponse m now { r with content := some v2 } rq =
            makeResultResponse m now r rq := by
  have he2 : e2 =
      { err := some (errMarshalResultFailed ++ ": " ++ failMsg)
        statusCode := 500
        timeStamp := now } := by
    have h0 : internalServerError now [GoVal.err (errMarshalResultFailed ++ ": " ++ failMsg)] =
        Except.ok
          ({ err := some (errMarshalResultFailed ++ ": " ++ failMsg)
             statusCode := 500
             timeStamp := now } : ErrorS) := rfl
    exact (Except.ok.inj (h0.symm.trans he)).symm
  subst he2
  have key : ∀ (rr : ResultS) (w : MVal), rr.contentType = none → rr.content = some w →
      m w = Except.error failMsg →
      makeResultResponse m now rr rq =
        Except.ok
          { statusCode := 500, contentType := rq.accept, content := body, headers := [] } := by
    intro rr w hctr hcr hw
    unfold makeResultResponse
    rw [hctr, hcr]
    show ((match m w with
      | Except.error err => (do
          let e ← internalServerError now [GoVal.err (errMarshalResultFailed ++ ": " ++ err)]
          makeErrorResponse m now e rq)
      | Except.ok content =>
        Except.ok
          { statusCode := coalesce rr.statusCode 200
            contentType := rq.accept
            content := content
            headers := rr.headers }) : Except PanicE Response) = _
    rw [hw]
    show makeErrorResponse m now
        { err := some (errMarshalResultFailed ++ ": " ++ failMsg)
          statusCode := 500
          timeStamp := now } rq = _
    rw [makeErrorResponse_marshal_ok m now
      { err := some (errMarshalResultFailed ++ ": " ++ failMsg)
        statusCode := 500
        timeStamp := now } rq p body
      (by
        show ¬((500 : Int) ≠ 0 ∧ ((500 : Int) < 400 ∨ (500 : Int) > 599))
        decide) hp hm]
    rfl
  have hpm : p.message = errMarshalResultFailed ++ ": " ++ failMsg := by
    have hpR : (Except.ok
        ({ status := 500
           error := "Internal Server Error"
           message := errMarshalResultFailed ++ ": " ++ failMsg
           path := rq.request.path
           query := rq.request.query
           timestamp := coalesceNat now now
           help := ""
           additional := [] } : ErrorProjection) : Except PanicE ErrorProjection) =
        Except.ok p := hp
    rw [← Except.ok.inj hpR]
  exact ⟨key r v hct hc hv, hpm,
    fun v2 hv2 => (key { r with content := some v2 } v2 hct rfl hv2).trans
      (key r v hct hc hv).symm⟩

/-- Witness for C2: a Result whose value fails to marshal, under a
marshaller that still marshals error projections, produces a 500 at the
negotiated content type carrying the marshalled projection. -/
theorem result_marshal_failure_yields_500_witness :
    makeResultResponse
        (fun w => match w with
          | MVal.proj _ => Except.ok "PROJBODY"
          | _ => Except.error "boom") 7
        { content := some (MVal.value 1) } ⟨⟨"/p", "q"⟩, "application/json"⟩ =
      Except.ok
        { statusCode := 500
          contentType := "application/json"
          content := "PROJBODY"
          headers := [] } :=
  (result_marshal_failure_yields_500
    (fun w => match w with
      | MVal.proj _ => Except.ok "PROJBODY"
      | _ => Except.error "boom") 7
    { content := some (MVal.value 1) } ⟨⟨"/p", "q"⟩, "application/json"⟩
    (MVal.value 1) "boom" "PROJBODY"
    { err := some ("error marshalling response: boom"), statusCode := 500, timeStamp := 7 }
    { status := 500
      error := "Internal Server Error"
      message := "error marshalling response: boom"
      path := "/p"
      query := "q"
      timestamp := 7 }
    rfl rfl rfl rfl rfl rfl).1

end RestApi
